import Mathlib

/-!
Verification of the JSON-RPC client core of the codex-sdk-go repository.

The development shallowly embeds the `rpc` package: the JSON wire values
handled by `encoding/json`, the `RequestID` / message model of `doc.go`,
the message classifier `parseMessage` of `client.go`, the client state
machine (pending-request table, subscriptions, termination), and the
transports of `replay_transport.go`.  Stateful Go code becomes explicit
state passing; transport writes and channel sends become explicit events;
fallible code returns `Except` or `Option`.
-/

set_option maxHeartbeats 1000000

/-- JSON values as decoded by Go `encoding/json` into `any`.  Restriction of
the embedding: JSON numbers are modelled as integers (every number on this
wire — request ids and error codes — is an integer; the `float64` cases of
the Go decoder are outside the model). -/
inductive Json where
  | null : Json
  | bool (b : Bool) : Json
  | num (n : Int) : Json
  | str (s : String) : Json
  | arr (elems : List Json) : Json
  | obj (fields : List (String × Json)) : Json

mutual

/-- Boolean structural equality of JSON values. -/
def beqJson : Json → Json → Bool
  | .null, .null => true
  | .bool a, .bool b => a == b
  | .num a, .num b => a == b
  | .str a, .str b => a == b
  | .arr a, .arr b => beqJsonList a b
  | .obj a, .obj b => beqJsonFields a b
  | _, _ => false

/-- Boolean structural equality of JSON arrays. -/
def beqJsonList : List Json → List Json → Bool
  | [], [] => true
  | a :: as, b :: bs => beqJson a b && beqJsonList as bs
  | _, _ => false

/-- Boolean structural equality of JSON object field lists. -/
def beqJsonFields : List (String × Json) → List (String × Json) → Bool
  | [], [] => true
  | (k, v) :: as, (k2, v2) :: bs => k == k2 && beqJson v v2 && beqJsonFields as bs
  | _, _ => false

end

mutual

theorem beqJson_eq : ∀ (a b : Json), beqJson a b = true ↔ a = b
  | .null, b => by cases b <;> simp [beqJson]
  | .bool x, b => by cases b <;> simp [beqJson]
  | .num x, b => by cases b <;> simp [beqJson]
  | .str x, b => by cases b <;> simp [beqJson]
  | .arr xs, b => by
      cases b <;> simp [beqJson]
      exact beqJsonList_eq xs _
  | .obj fs, b => by
      cases b <;> simp [beqJson]
      exact beqJsonFields_eq fs _

theorem beqJsonList_eq : ∀ (a b : List Json), beqJsonList a b = true ↔ a = b
  | [], b => by cases b <;> simp [beqJsonList]
  | x :: xs, [] => by simp [beqJsonList]
  | x :: xs, y :: ys => by
      simp [beqJsonList, beqJson_eq x y, beqJsonList_eq xs ys]

theorem beqJsonFields_eq : ∀ (a b : List (String × Json)),
    beqJsonFields a b = true ↔ a = b
  | [], b => by cases b <;> simp [beqJsonFields]
  | (k, v) :: xs, [] => by simp [beqJsonFields]
  | (k, v) :: xs, (k2, v2) :: ys => by
      simp [beqJsonFields, beqJson_eq v v2, beqJsonFields_eq xs ys, and_assoc]

end

instance : DecidableEq Json := fun a b => decidable_of_iff _ (beqJson_eq a b)

/-- Escaping of one character inside a JSON string literal, as produced by
Go `json.Marshal` (restriction: the HTML escapes of `&`, `<`, `>` and the
`\uXXXX` escapes of other control characters are not modelled; no witness
input uses such characters). -/
def escapeJsonChar (c : Char) : List Char :=
  if c = '"' then ['\\', '"']
  else if c = '\\' then ['\\', '\\']
  else if c = '\n' then ['\\', 'n']
  else if c = '\t' then ['\\', 't']
  else if c = '\r' then ['\\', 'r']
  else if c = Char.ofNat 8 then ['\\', 'b']
  else if c = Char.ofNat 12 then ['\\', 'f']
  else [c]

/-- Serialization of a JSON string literal, including the surrounding
quotes. -/
def printJsonString (s : String) : String :=
  ⟨'"' :: (s.data.map escapeJsonChar).flatten ++ ['"']⟩

mutual

/-- Serialization of a `Json` value, modelling Go `json.Marshal` applied to
the corresponding `any` value (object fields are printed in list order; the
normalization step sorts them first). -/
def printJson : Json → String
  | .null => "null"
  | .bool true => "true"
  | .bool false => "false"
  | .num n => toString n
  | .str s => printJsonString s
  | .arr elems => "[" ++ printJsonItems elems ++ "]"
  | .obj fields => "\x7b" ++ printJsonFields fields ++ "\x7d"

/-- Comma-separated serialization of array elements. -/
def printJsonItems : List Json → String
  | [] => ""
  | [x] => printJson x
  | x :: y :: rest => printJson x ++ "," ++ printJsonItems (y :: rest)

/-- Comma-separated serialization of object fields. -/
def printJsonFields : List (String × Json) → String
  | [] => ""
  | [(k, v)] => printJsonString k ++ ":" ++ printJson v
  | (k, v) :: f :: rest =>
      printJsonString k ++ ":" ++ printJson v ++ "," ++ printJsonFields (f :: rest)

end

/-- Last-occurrence-wins deduplication of object keys, modelling Go
`json.Unmarshal` of an object into a `map[string]any`. -/
def dedupKeysLastWins : List (String × Json) → List (String × Json)
  | [] => []
  | (k, v) :: rest =>
      if rest.any (fun kv => kv.1 = k) then dedupKeysLastWins rest
      else (k, v) :: dedupKeysLastWins rest

/-- Ordered insertion of a field by key, ascending. -/
def insertField (kv : String × Json) : List (String × Json) → List (String × Json)
  | [] => [kv]
  | kv2 :: rest =>
      if compare kv.1 kv2.1 = Ordering.gt then kv2 :: insertField kv rest
      else kv :: kv2 :: rest

/-- Insertion sort of object fields by key, modelling the sorted-key output
of Go `json.Marshal` on a `map[string]any`. -/
def sortFieldsByKey : List (String × Json) → List (String × Json)
  | [] => []
  | kv :: rest => insertField kv (sortFieldsByKey rest)

mutual

/-- Canonical form of a JSON value after a Go `Unmarshal` into `any`
followed by `Marshal`: object keys deduplicated (last wins) and sorted,
recursively. -/
def canonJson : Json → Json
  | .null => .null
  | .bool b => .bool b
  | .num n => .num n
  | .str s => .str s
  | .arr elems => .arr (canonList elems)
  | .obj fields => .obj (sortFieldsByKey (dedupKeysLastWins (canonFields fields)))

/-- Canonical form of each element of a JSON array. -/
def canonList : List Json → List Json
  | [] => []
  | x :: rest => canonJson x :: canonList rest

/-- Canonical form of each value of a JSON object. -/
def canonFields : List (String × Json) → List (String × Json)
  | [] => []
  | (k, v) :: rest => (k, canonJson v) :: canonFields rest

end

/-- Whitespace characters skipped by the Go JSON scanner. -/
def jsonWs (c : Char) : Bool :=
  c = ' ' || c = '\t' || c = '\n' || c = '\r'

/-- Drop leading JSON whitespace. -/
def skipWs : List Char → List Char
  | [] => []
  | c :: rest => if jsonWs c then skipWs rest else c :: rest

/-- Match an expected literal suffix (the tail of `null`, `true`, `false`). -/
def dropLit : List Char → List Char → Option (List Char)
  | [], input => some input
  | e :: es, c :: rest => if c = e then dropLit es rest else none
  | _ :: _, [] => none

/-- Decode one escape character of a JSON string literal (restriction: the
`\uXXXX` form is not modelled). -/
def unescapeJsonChar (e : Char) : Option Char :=
  if e = '"' then some '"'
  else if e = '\\' then some '\\'
  else if e = '/' then some '/'
  else if e = 'n' then some '\n'
  else if e = 't' then some '\t'
  else if e = 'r' then some '\r'
  else if e = 'b' then some (Char.ofNat 8)
  else if e = 'f' then some (Char.ofNat 12)
  else none

/-- Parse the body of a JSON string literal after the opening quote, up to
and including the closing quote. -/
def parseStringChars : List Char → Option (List Char × List Char)
  | [] => none
  | c :: rest =>
    if c = '"' then some ([], rest)
    else if c = '\\' then
      match rest with
      | [] => none
      | e :: rest2 =>
        match unescapeJsonChar e with
        | none => none
        | some d =>
          match parseStringChars rest2 with
          | none => none
          | some (cs, r) => some (d :: cs, r)
    else
      match parseStringChars rest with
      | none => none
      | some (cs, r) => some (c :: cs, r)

/-- Split a maximal run of decimal digits off the front of the input. -/
def takeDigits : List Char → List Char × List Char
  | [] => ([], [])
  | c :: rest =>
    if c.isDigit then
      let (d, r) := takeDigits rest
      (c :: d, r)
    else ([], c :: rest)

/-- Numeric value of a digit string. -/
def digitsToNat (ds : List Char) : Nat :=
  ds.foldl (fun acc c => 10 * acc + (c.toNat - 48)) 0

/-- Parse a JSON integer literal (restriction of the embedding: a fraction
or exponent part makes the parse fail, see `Json`). -/
def parseIntLit (input : List Char) : Option (Int × List Char) :=
  let (neg, afterSign) :=
    match input with
    | '-' :: rest => (true, rest)
    | _ => (false, input)
  let (ds, rest) := takeDigits afterSign
  if ds.isEmpty then none
  else
    match rest with
    | '.' :: _ => none
    | 'e' :: _ => none
    | 'E' :: _ => none
    | _ => some (if neg then -(digitsToNat ds : Int) else (digitsToNat ds : Int), rest)

mutual

/-- Fuel-driven recursive-descent parser for one JSON value, modelling the
Go JSON scanner on a byte string.  Returns the value and the unconsumed
input. -/
def parseJsonFuel : Nat → List Char → Option (Json × List Char)
  | 0, _ => none
  | fuel + 1, input =>
    match skipWs input with
    | [] => none
    | c :: rest =>
      if c = 'n' then (dropLit ['u', 'l', 'l'] rest).map (fun r => (Json.null, r))
      else if c = 't' then (dropLit ['r', 'u', 'e'] rest).map (fun r => (Json.bool true, r))
      else if c = 'f' then (dropLit ['a', 'l', 's', 'e'] rest).map (fun r => (Json.bool false, r))
      else if c = '"' then (parseStringChars rest).map (fun p => (Json.str ⟨p.1⟩, p.2))
      else if c = '[' then
        match skipWs rest with
        | ']' :: r => some (Json.arr [], r)
        | r0 => (parseItemsFuel fuel r0).map (fun p => (Json.arr p.1, p.2))
      else if c = '\x7b' then
        match skipWs rest with
        | '\x7d' :: r => some (Json.obj [], r)
        | r0 => (parseFieldsFuel fuel r0).map (fun p => (Json.obj p.1, p.2))
      else
        (parseIntLit (c :: rest)).map (fun p => (Json.num p.1, p.2))

/-- Parse the comma-separated elements of a non-empty JSON array, up to and
including the closing bracket. -/
def parseItemsFuel : Nat → List Char → Option (List Json × List Char)
  | 0, _ => none
  | fuel + 1, input =>
    match parseJsonFuel fuel input with
    | none => none
    | some (v, rest) =>
      match skipWs rest with
      | ']' :: r => some ([v], r)
      | ',' :: r =>
        match parseItemsFuel fuel r with
        | none => none
        | some (vs, r2) => some (v :: vs, r2)
      | _ => none

/-- Parse the comma-separated fields of a non-empty JSON object, up to and
including the closing brace. -/
def parseFieldsFuel : Nat → List Char → Option (List (String × Json) × List Char)
  | 0, _ => none
  | fuel + 1, input =>
    match skipWs input with
    | '"' :: rest =>
      match parseStringChars rest with
      | none => none
      | some (key, afterKey) =>
        match skipWs afterKey with
        | ':' :: afterColon =>
          match parseJsonFuel fuel afterColon with
          | none => none
          | some (v, rest2) =>
            match skipWs rest2 with
            | '\x7d' :: r => some ([(⟨key⟩, v)], r)
            | ',' :: r =>
              match parseFieldsFuel fuel r with
              | none => none
              | some (fs, r2) => some ((⟨key⟩, v) :: fs, r2)
            | _ => none
        | _ => none
    | _ => none

end

/-- Parse a whole byte string as one JSON value, modelling Go
`json.Unmarshal` into `any`: the value must be followed only by
whitespace. -/
def parseJson (s : String) : Option Json :=
  match parseJsonFuel (2 * s.data.length + 2) s.data with
  | none => none
  | some (v, rest) => if skipWs rest = [] then some v else none

/-- Whitespace test of Go `unicode.IsSpace` (restriction: only the ASCII
space characters are modelled). -/
def goIsSpace (c : Char) : Bool :=
  c = ' ' || c = '\t' || c = '\n' || c = Char.ofNat 11 || c = Char.ofNat 12 || c = '\r'

/-- Go `strings.TrimSpace`. -/
def trimSpace (s : String) : String :=
  ⟨((s.data.dropWhile goIsSpace).reverse.dropWhile goIsSpace).reverse⟩

/-- Go source `normalizeJSONLine` (replay_transport.go): trim the line,
parse it as one JSON value, and re-serialize it canonically; `none` models
the `ok = false` result. -/
def normalizeJSONLine (line : String) : Option String :=
  let trimmed := trimSpace line
  if trimmed = "" then none
  else
    match parseJson trimmed with
    | none => none
    | some payload => some (printJson (canonJson payload))

/-- Go source `equalJSONLine` (replay_transport.go): two lines are equal as
JSON when both normalize and the normal forms agree. -/
def equalJSONLine (expected actual : String) : Bool :=
  match normalizeJSONLine expected, normalizeJSONLine actual with
  | some e, some a => e = a
  | _, _ => false

/-- Smallest value of a Go `int64`. -/
def int64Min : Int := -(2 ^ 63)

/-- Largest value of a Go `int64`. -/
def int64Max : Int := 2 ^ 63 - 1

/-- Range test for Go `int64`. -/
def inInt64Range (n : Int) : Bool := int64Min ≤ n && n ≤ int64Max

/-- Go source `RequestID` (doc.go): a JSON-RPC request id, either a string
or a 64-bit integer, possibly unset.  The Go struct holds two pointers of
which at most one is non-nil; the sum type is the value-level picture. -/
inductive RequestID where
  | zero : RequestID
  | str (s : String) : RequestID
  | num (n : Int) : RequestID
  deriving DecidableEq

/-- Go source `NewStringRequestID` (doc.go). -/
def NewStringRequestID (value : String) : RequestID := RequestID.str value

/-- Go source `NewIntRequestID` (doc.go). -/
def NewIntRequestID (value : Int) : RequestID := RequestID.num value

/-- Go source `RequestID.IsZero` (doc.go). -/
def RequestID.IsZero : RequestID → Bool
  | .zero => true
  | _ => false

/-- Go source `RequestID.Key` (doc.go): a stable string key for map usage,
prefixed by the kind of the id. -/
def RequestID.Key : RequestID → String
  | .str s => "s:" ++ s
  | .num n => "i:" ++ toString n
  | .zero => ""

/-- Go source `RequestID.MarshalJSON` (doc.go), at the JSON-value level:
marshal whichever representation is set, `null` for the zero id. -/
def RequestID.MarshalJSON : RequestID → Json
  | .str s => Json.str s
  | .num n => Json.num n
  | .zero => Json.null

/-- Go source `RequestID.UnmarshalJSON` (doc.go), at the JSON-value level:
`null` yields the zero id, a JSON string the string form, an integral JSON
number in `int64` range the integer form, anything else the
"invalid request id" error (an out-of-range number fails both the string
and the `int64` unmarshal and lands in the same error). -/
def RequestID.UnmarshalJSON : Json → Except String RequestID
  | Json.null => Except.ok RequestID.zero
  | Json.str s => Except.ok (RequestID.str s)
  | Json.num n =>
      if inInt64Range n then Except.ok (RequestID.num n)
      else Except.error ("invalid request id: " ++ printJson (Json.num n))
  | j => Except.error ("invalid request id: " ++ printJson j)

/-- Go source `JSONRPCErrorError` (doc.go): the error payload of a JSON-RPC
error response. -/
structure JSONRPCErrorError where
  code : Int
  message : String
  data : Option Json
  deriving DecidableEq

/-- Go source `JSONRPCRequest` (doc.go). -/
structure JSONRPCRequest where
  id : RequestID
  method : String
  params : Option Json
  deriving DecidableEq

/-- Go source `JSONRPCNotification` (doc.go). -/
structure JSONRPCNotification where
  method : String
  params : Option Json
  deriving DecidableEq

/-- Go source `JSONRPCResponse` (doc.go). -/
structure JSONRPCResponse where
  id : RequestID
  result : Json
  deriving DecidableEq

/-- Go source `JSONRPCError` (doc.go). -/
structure JSONRPCError where
  id : RequestID
  error : JSONRPCErrorError
  deriving DecidableEq

/-- Go source `message` (client.go): one parsed inbound line, tagged by the
four `messageKind` values. -/
inductive Message where
  | response (r : JSONRPCResponse) : Message
  | error (e : JSONRPCError) : Message
  | request (r : JSONRPCRequest) : Message
  | notification (n : JSONRPCNotification) : Message
  deriving DecidableEq

/-- Go source `ResponseError.Error` (doc.go): the formatted message of the
wrapped peer error. -/
def ResponseError.ErrorString (detail : JSONRPCErrorError) : String :=
  "json-rpc error " ++ toString detail.code ++ ": " ++ detail.message

/-- Go error values produced by the client: either a plain message
(`errors.New` / `fmt.Errorf`) or a `ResponseError` wrapping a peer
error. -/
inductive GoError where
  | msg (s : String) : GoError
  | responseError (id : RequestID) (detail : JSONRPCErrorError) : GoError
  deriving DecidableEq

/-- Result of the Go `Error()` method on a `GoError`. -/
def GoError.message : GoError → String
  | .msg s => s
  | .responseError _ detail => ResponseError.ErrorString detail

/-- Last occurrence of a top-level object key, modelling Go field decoding
on objects with duplicate keys (the last occurrence wins). -/
def lookupLastField (fields : List (String × Json)) (key : String) : Option Json :=
  (fields.reverse.find? (fun kv => kv.1 == key)).map (fun kv => kv.2)

/-- Go unmarshal of a JSON value into an `int64` field: `null` keeps the zero
value, an in-range integral number is taken, anything else fails. -/
def decodeInt64Field : Option Json → Except String Int
  | none => Except.ok 0
  | some Json.null => Except.ok 0
  | some (Json.num n) =>
      if inInt64Range n then Except.ok n
      else Except.error "cannot unmarshal number into int64 field"
  | some _ => Except.error "cannot unmarshal JSON value into int64 field"

/-- Go unmarshal of a JSON value into a `string` field: an absent key or
`null` keeps the empty string, a JSON string is taken, anything else
fails. -/
def decodeStringField : Option Json → Except String String
  | none => Except.ok ""
  | some Json.null => Except.ok ""
  | some (Json.str s) => Except.ok s
  | some _ => Except.error "cannot unmarshal JSON value into string field"

/-- Go unmarshal of a JSON object into `JSONRPCErrorError`. -/
def decodeErrorDetail (j : Json) : Except String JSONRPCErrorError :=
  match j with
  | Json.obj fields =>
    match decodeInt64Field (lookupLastField fields "code") with
    | Except.error e => Except.error e
    | Except.ok code =>
      match decodeStringField (lookupLastField fields "message") with
      | Except.error e => Except.error e
      | Except.ok message =>
        Except.ok ⟨code, message, lookupLastField fields "data"⟩
  | Json.null => Except.error "unreachable: null handled by the pointer field"
  | _ => Except.error "cannot unmarshal JSON value into JSONRPCErrorError"

/-- Go unmarshal of a JSON value into the `*JSONRPCErrorError` field: an
absent key or `null` leaves the pointer nil. -/
def decodeErrorField : Option Json → Except String (Option JSONRPCErrorError)
  | none => Except.ok none
  | some Json.null => Except.ok none
  | some j =>
    match decodeErrorDetail j with
    | Except.error e => Except.error e
    | Except.ok detail => Except.ok (some detail)

/-- The anonymous envelope struct of Go source `parseMessage` (client.go):
raw `id`, `params` and `result` fields plus decoded `method` and `error`
fields. -/
structure Envelope where
  id : Option Json
  method : String
  params : Option Json
  result : Option Json
  error : Option JSONRPCErrorError
  deriving DecidableEq

/-- Go `json.Unmarshal` of one line into the envelope struct: `null` keeps
the zero envelope, an object decodes field-wise, any other JSON value
fails. -/
def decodeEnvelope (j : Json) : Except String Envelope :=
  match j with
  | Json.null => Except.ok ⟨none, "", none, none, none⟩
  | Json.obj fields =>
    match decodeStringField (lookupLastField fields "method") with
    | Except.error e => Except.error e
    | Except.ok method =>
      match decodeErrorField (lookupLastField fields "error") with
      | Except.error e => Except.error e
      | Except.ok error =>
        Except.ok ⟨lookupLastField fields "id", method,
          lookupLastField fields "params", lookupLastField fields "result", error⟩
  | _ => Except.error "cannot unmarshal JSON value into envelope struct"

/-- Go source `parseRequestID` (client.go): an absent raw id (length zero)
yields the zero id, otherwise `RequestID.UnmarshalJSON` runs. -/
def parseRequestID : Option Json → Except String RequestID
  | none => Except.ok RequestID.zero
  | some j => RequestID.UnmarshalJSON j

/-- Go source `parseMessage` (client.go), at the JSON-value level: decode
the envelope, then classify — non-empty method with a present id key is a
request, non-empty method without an id key a notification, otherwise a
present result key is a response, otherwise a non-null error field an
error, and otherwise the "unrecognized json-rpc message" failure. -/
def parseMessage (j : Json) : Except String Message :=
  match decodeEnvelope j with
  | Except.error e => Except.error e
  | Except.ok env =>
    if env.method ≠ "" then
      if env.id.isSome then
        match parseRequestID env.id with
        | Except.error e => Except.error e
        | Except.ok id => Except.ok (Message.request ⟨id, env.method, env.params⟩)
      else Except.ok (Message.notification ⟨env.method, env.params⟩)
    else
      match env.result with
      | some r =>
        match parseRequestID env.id with
        | Except.error e => Except.error e
        | Except.ok id => Except.ok (Message.response ⟨id, r⟩)
      | none =>
        match env.error with
        | some detail =>
          match parseRequestID env.id with
          | Except.error e => Except.error e
          | Except.ok id => Except.ok (Message.error ⟨id, detail⟩)
        | none => Except.error "unrecognized json-rpc message"

/-- One inbound line as consumed by the read loop: raw text parse followed
by `parseMessage`. -/
def parseLine (line : String) : Except String Message :=
  match parseJson line with
  | none => Except.error "invalid json"
  | some j => parseMessage j

/-- JSON value produced by Go `json.Marshal` on a `JSONRPCRequest` (field
order of the struct declaration; `params` carries `omitempty`). -/
def JSONRPCRequest.marshal (r : JSONRPCRequest) : Json :=
  Json.obj ([("id", r.id.MarshalJSON), ("method", Json.str r.method)] ++
    (match r.params with
     | none => []
     | some p => [("params", p)]))

/-- JSON value produced by Go `json.Marshal` on a `JSONRPCErrorError`
(`data` carries `omitempty`). -/
def JSONRPCErrorError.marshal (e : JSONRPCErrorError) : Json :=
  Json.obj ([("code", Json.num e.code), ("message", Json.str e.message)] ++
    (match e.data with
     | none => []
     | some d => [("data", d)]))

/-- JSON value produced by Go `json.Marshal` on a `JSONRPCError`. -/
def JSONRPCError.marshal (e : JSONRPCError) : Json :=
  Json.obj [("id", e.id.MarshalJSON), ("error", e.error.marshal)]

/-- JSON value produced by Go `json.Marshal` on a `JSONRPCResponse`. -/
def JSONRPCResponse.marshal (r : JSONRPCResponse) : Json :=
  Json.obj [("id", r.id.MarshalJSON), ("result", r.result)]

/-- JSON value produced by Go `json.Marshal` on a `JSONRPCNotification`
(`params` carries `omitempty`). -/
def JSONRPCNotification.marshal (n : JSONRPCNotification) : Json :=
  Json.obj ([("method", Json.str n.method)] ++
    (match n.params with
     | none => []
     | some p => [("params", p)]))

/-- Go `%q` formatting of a string (restriction: the same escape set as
`escapeJsonChar`; no witness input needs other escapes). -/
def goQuote (s : String) : String :=
  ⟨'"' :: (s.data.map escapeJsonChar).flatten ++ ['"']⟩

/-- Go source `TranscriptDirection` (replay_transport.go). -/
inductive TranscriptDirection where
  | read : TranscriptDirection
  | write : TranscriptDirection
  deriving DecidableEq

/-- Go source `TranscriptEntry` (replay_transport.go). -/
structure TranscriptEntry where
  direction : TranscriptDirection
  line : String
  deriving DecidableEq

/-- Mutable state of a Go source `ReplayTransport` (replay_transport.go). -/
structure ReplayState where
  transcript : List TranscriptEntry
  index : Nat
  closed : Bool
  deriving DecidableEq

/-- Go source `NewReplayTransport` (replay_transport.go). -/
def NewReplayTransport (transcript : List TranscriptEntry) : ReplayState :=
  ⟨transcript, 0, false⟩

/-- Outcome of one `WriteLine` call on the replay transport: success with
the advanced state, an error with the unchanged state, or a blocked call
(the Go code parks on the condition variable until another thread advances
the cursor; the sequential model surfaces that as `wait`). -/
inductive WriteOutcome where
  | ok (t : ReplayState) : WriteOutcome
  | err (e : String) (t : ReplayState) : WriteOutcome
  | wait : WriteOutcome
  deriving DecidableEq

/-- Go source `ReplayTransport.WriteLine` (replay_transport.go): a closed
transport and an exhausted transcript fail; a write-direction cursor entry
is consumed when the supplied line is equal to it as a string or as
normalized JSON, and otherwise fails with both lines in the message without
advancing the cursor; a read-direction cursor entry parks the caller. -/
def ReplayTransport.WriteLine (t : ReplayState) (line : String) : WriteOutcome :=
  if t.closed then WriteOutcome.err "replay transport closed" t
  else if h : t.index < t.transcript.length then
    let entry := t.transcript.get ⟨t.index, h⟩
    if entry.direction = TranscriptDirection.write then
      if entry.line ≠ line ∧ equalJSONLine entry.line line = false then
        WriteOutcome.err
          ("unexpected WriteLine: got " ++ goQuote line ++ ", want " ++ goQuote entry.line) t
      else WriteOutcome.ok { t with index := t.index + 1 }
    else WriteOutcome.wait
  else WriteOutcome.err "unexpected WriteLine: no transcript entries left" t

/-- Outcome of one `ReadLine` call on the replay transport. -/
inductive ReplayReadOutcome where
  | ok (line : String) (t : ReplayState) : ReplayReadOutcome
  | err (e : GoError) (t : ReplayState) : ReplayReadOutcome
  | wait : ReplayReadOutcome
  deriving DecidableEq

/-- Go source `ReplayTransport.ReadLine` (replay_transport.go): a closed
transport yields `io.EOF`; a read-direction cursor entry is consumed and
returned; otherwise the caller parks on the condition variable. -/
def ReplayTransport.ReadLine (t : ReplayState) : ReplayReadOutcome :=
  if t.closed then ReplayReadOutcome.err (GoError.msg "EOF") t
  else if h : t.index < t.transcript.length then
    let entry := t.transcript.get ⟨t.index, h⟩
    if entry.direction = TranscriptDirection.read then
      ReplayReadOutcome.ok entry.line { t with index := t.index + 1 }
    else ReplayReadOutcome.wait
  else ReplayReadOutcome.wait

/-- Go source `ReplayTransport.Close` (replay_transport.go). -/
def ReplayTransport.Close (t : ReplayState) : ReplayState :=
  { t with closed := true }

/-- Lookup in a Go map modelled as an association list keyed by strings. -/
def mapLookup {α : Type} (table : List (String × α)) (key : String) : Option α :=
  (table.find? (fun kv => kv.1 == key)).map (fun kv => kv.2)

/-- Deletion from a Go map modelled as an association list (a no-op when
the key is absent, as for Go `delete`). -/
def mapErase {α : Type} (table : List (String × α)) (key : String) : List (String × α) :=
  table.filter (fun kv => !(kv.1 == key))

/-- Insertion into a Go map modelled as an association list: overwrite the
existing entry or append a fresh one. -/
def mapInsert {α : Type} (table : List (String × α)) (key : String) (v : α) :
    List (String × α) :=
  if table.any (fun kv => kv.1 == key) then
    table.map (fun kv => if kv.1 == key then (key, v) else kv)
  else table ++ [(key, v)]

/-- Go source `response` (client.go): the value sent on a pending Call's
delivery channel. -/
structure response where
  result : Option Json
  err : Option GoError
  deriving DecidableEq

/-- Observable side effects of the client state machine: a send on a
pending Call's delivery channel (named by its table key), the closing of a
subscription, and a line written to the transport. -/
inductive Event where
  | resolve (key : String) (msg : response) : Event
  | closeSub (sid : Nat) : Event
  | write (line : String) : Event
  deriving DecidableEq

/-- Go source `Client` (client.go), the shared mutable state: the request
id counter, the pending-request table (key to delivery channel; the channel
itself is identified by the key, so the table stores only a placeholder),
the subscription registry, the server-request handler, and the termination
state (`done` closed, recorded error).  The handler field models the
composite of the installed `ServerRequestHandler` and the generated
`dispatchServerRequest` (that function is not among the provided sources):
it maps an inbound request to a result payload or an error, per the spec's
decode-invoke-encode contract. -/
structure ClientState where
  nextID : Int
  pending : List (String × Nat)
  subs : List Nat
  handler : Option (JSONRPCRequest → Except GoError Json)
  finished : Bool
  err : Option GoError

/-- Go source `Client.errOrClosed` (client.go). -/
def Client.errOrClosed (c : ClientState) : GoError :=
  match c.err with
  | some e => e
  | none => GoError.msg "connection closed"

/-- Go source `Client.finish` (client.go): under `doneOnce`, record the
error, close `done`, resolve every pending entry with the error and clear
the table, then close every subscription and clear the registry.  A second
call finds `doneOnce` spent and does nothing. -/
def Client.finish (c : ClientState) (e : GoError) : ClientState × List Event :=
  if c.finished then (c, [])
  else
    ({ c with finished := true, err := some e, pending := [], subs := [] },
      c.pending.map (fun kv => Event.resolve kv.1 ⟨none, some e⟩) ++
        c.subs.map Event.closeSub)

/-- Go source `Client.Close` (client.go): finish with the "client closed"
error (the subsequent transport close is outside the client state). -/
def Client.Close (c : ClientState) : ClientState × List Event :=
  Client.finish c (GoError.msg "client closed")

/-- Go source `Client.nextRequestID` (client.go): atomically increment the
counter and build an integer id. -/
def Client.nextRequestID (c : ClientState) : RequestID × ClientState :=
  (RequestID.num (c.nextID + 1), { c with nextID := c.nextID + 1 })

/-- Go source `Client.deletePending` (client.go). -/
def Client.deletePending (c : ClientState) (id : RequestID) : ClientState :=
  { c with pending := mapErase c.pending id.Key }

/-- Go source `Client.handleResponse` (client.go): look up and delete the
pending entry for the response id; deliver the raw result on the channel
when an entry existed, and silently do nothing otherwise. -/
def Client.handleResponse (c : ClientState) (resp : JSONRPCResponse) :
    ClientState × List Event :=
  let ch := mapLookup c.pending resp.id.Key
  let c2 := { c with pending := mapErase c.pending resp.id.Key }
  match ch with
  | none => (c2, [])
  | some _ => (c2, [Event.resolve resp.id.Key ⟨some resp.result, none⟩])

/-- Go source `Client.handleError` (client.go): like `handleResponse`, but
deliver a `ResponseError` wrapping the peer error. -/
def Client.handleError (c : ClientState) (resp : JSONRPCError) :
    ClientState × List Event :=
  let ch := mapLookup c.pending resp.id.Key
  let c2 := { c with pending := mapErase c.pending resp.id.Key }
  match ch with
  | none => (c2, [])
  | some _ =>
      (c2, [Event.resolve resp.id.Key ⟨none, some (GoError.responseError resp.id resp.error)⟩])

/-- Go source `Client.replyError` (client.go): marshal and write a JSON-RPC
error line keyed by the given id. -/
def Client.replyError (id : RequestID) (code : Int) (message : String)
    (data : Option Json) : Event :=
  Event.write (printJson (JSONRPCError.marshal ⟨id, ⟨code, message, data⟩⟩))

/-- Go source `Client.replyResult` (client.go): marshal and write a
JSON-RPC response line keyed by the given id (with results modelled as
JSON values the marshal step cannot fail). -/
def Client.replyResult (id : RequestID) (result : Json) : Event :=
  Event.write (printJson (JSONRPCResponse.marshal ⟨id, result⟩))

/-- Go source `Client.handleServerRequest` (client.go): with no handler
installed reply with the fixed -32601 error; otherwise dispatch and reply
with the handler's result or a -32602 error carrying its message. -/
def Client.handleServerRequest (c : ClientState) (req : JSONRPCRequest) : List Event :=
  match c.handler with
  | none => [Client.replyError req.id (-32601) "no handler configured" none]
  | some h =>
    match h req with
    | Except.error e => [Client.replyError req.id (-32602) e.message none]
    | Except.ok result => [Client.replyResult req.id result]

/-- Modelled from the spec: `BuildClientRequest` lives in the repository's
generated client code, which is not among the provided sources.  Per the
spec, Call "serializes params to opaque JSON (failure here — e.g., a value
that cannot be represented in JSON — is reported immediately ...)" and the
outbound request is `(id, method, params)`.  The `params` argument is the
outcome of that serialization attempt. -/
def BuildClientRequest (method : String) (params : Except GoError (Option Json))
    (id : RequestID) : Except GoError JSONRPCRequest :=
  match params with
  | Except.error e => Except.error e
  | Except.ok p => Except.ok ⟨id, method, p⟩

/-- Outcome of waiting for one pending key while the read loop consumes
transcript entries. -/
inductive AwaitOutcome where
  | resolved (msg : response) (rest : List TranscriptEntry) : AwaitOutcome
  | stuck : AwaitOutcome
  | serverRequest : AwaitOutcome

/-- The read loop of Go source `Client.readLoop` (client.go), viewed from
one pending Call over a replay transport with the remaining transcript
suffix: blank lines and unparsable lines are skipped, response and error
lines for a different key are silently dropped, notifications go to the
subscriptions without touching the transport, and a response or error line
for the awaited key resolves it exactly as `handleResponse` /
`handleError` deliver it.  A write-direction entry or an exhausted
transcript parks `ReadLine` forever in this single-call setting (`stuck`);
a server-initiated request would make the read loop write a reply, which is
outside the single-call model and flagged as `serverRequest`. -/
def awaitKey (key : String) : List TranscriptEntry → AwaitOutcome
  | [] => AwaitOutcome.stuck
  | e :: rest =>
    if e.direction = TranscriptDirection.write then AwaitOutcome.stuck
    else if trimSpace e.line = "" then awaitKey key rest
    else
      match parseLine e.line with
      | Except.error _ => awaitKey key rest
      | Except.ok (Message.response r) =>
          if r.id.Key = key then AwaitOutcome.resolved ⟨some r.result, none⟩ rest
          else awaitKey key rest
      | Except.ok (Message.error er) =>
          if er.id.Key = key then
            AwaitOutcome.resolved ⟨none, some (GoError.responseError er.id er.error)⟩ rest
          else awaitKey key rest
      | Except.ok (Message.notification _) => awaitKey key rest
      | Except.ok (Message.request _) => AwaitOutcome.serverRequest

/-- Outcome of `ReplayTransport.WriteLine` phrased on the transcript suffix
from the cursor (the form used while composing Call with the read loop). -/
inductive WriteLineOnEntries where
  | ok (rest : List TranscriptEntry) : WriteLineOnEntries
  | err (e : String) : WriteLineOnEntries
  | wait : WriteLineOnEntries

/-- Go source `ReplayTransport.WriteLine` (replay_transport.go) on the
transcript suffix from the cursor of an open transport. -/
def replayWriteLineEntries : List TranscriptEntry → String → WriteLineOnEntries
  | [], _ => WriteLineOnEntries.err "unexpected WriteLine: no transcript entries left"
  | entry :: rest, line =>
    if entry.direction = TranscriptDirection.write then
      if entry.line ≠ line ∧ equalJSONLine entry.line line = false then
        WriteLineOnEntries.err
          ("unexpected WriteLine: got " ++ goQuote line ++ ", want " ++ goQuote entry.line)
      else WriteLineOnEntries.ok rest
    else WriteLineOnEntries.wait

/-- Result of one Call as observed by its caller. -/
inductive CallResult (α : Type) where
  | ok (v : α) : CallResult α
  | err (e : GoError) : CallResult α
  | stuck : CallResult α
  | unmodelled : CallResult α

/-- Go source `Client.Call` (client.go) composed with the read loop over a
replay transport, sequentially, for one Call with no context cancellation:
ensure the client is open, allocate a fresh id, insert the pending entry,
build the request (a params serialization failure deletes the entry and
returns), write the marshalled line to the replay transcript (a write error
deletes the entry and returns), then wait until the read loop resolves the
key and decode the delivered raw result with the caller's decoder `dec`
(modelling `json.Unmarshal(resp.result, result)`).  Returns the caller's
outcome, the final client state, and the remaining transcript suffix. -/
def Client.CallRun {α : Type} (c : ClientState) (entries : List TranscriptEntry)
    (method : String) (params : Except GoError (Option Json))
    (dec : Json → Except GoError α) :
    CallResult α × ClientState × List TranscriptEntry :=
  if c.finished then (CallResult.err (Client.errOrClosed c), c, entries)
  else
    let idc := Client.nextRequestID c
    let id := idc.1
    let c1 := { idc.2 with pending := mapInsert idc.2.pending id.Key 0 }
    match BuildClientRequest method params id with
    | Except.error e => (CallResult.err e, Client.deletePending c1 id, entries)
    | Except.ok payload =>
      match replayWriteLineEntries entries (printJson payload.marshal) with
      | WriteLineOnEntries.err e =>
          (CallResult.err (GoError.msg e), Client.deletePending c1 id, entries)
      | WriteLineOnEntries.wait => (CallResult.stuck, c1, entries)
      | WriteLineOnEntries.ok rest =>
        match awaitKey id.Key rest with
        | AwaitOutcome.serverRequest => (CallResult.unmodelled, c1, rest)
        | AwaitOutcome.stuck => (CallResult.stuck, c1, rest)
        | AwaitOutcome.resolved msg rest2 =>
          let c2 := Client.deletePending c1 id
          match msg.err with
          | some e => (CallResult.err e, c2, rest2)
          | none =>
            match msg.result with
            | none => (CallResult.err (GoError.msg "unexpected end of JSON input"), c2, rest2)
            | some r =>
              match dec r with
              | Except.error e => (CallResult.err e, c2, rest2)
              | Except.ok v => (CallResult.ok v, c2, rest2)

/-- Go `bufio.Reader.ReadString` up to the first newline: the consumed
characters (newline included when found), whether a newline was found, and
the rest of the stream. -/
def readUntilNL : List Char → List Char × Bool × List Char
  | [] => ([], false, [])
  | c :: rest =>
    if c = '\n' then ([c], true, rest)
    else
      let (l, f, r) := readUntilNL rest
      (c :: l, f, r)

/-- Go `strings.TrimRight(line, "\n")`. -/
def trimRightNewlines (s : List Char) : List Char :=
  (s.reverse.dropWhile (fun c => c = '\n')).reverse

/-- Go source `StdioTransport.ReadLine` (replay_transport.go sources): read
one line from the child's stdout stream; at end of file a non-empty partial
line is returned without error, and only a read at the very end reports
`io.EOF`. -/
def StdioTransport.ReadLine (stdout : List Char) : Except GoError String × List Char :=
  let (line, found, rest) := readUntilNL stdout
  if found then (Except.ok ⟨trimRightNewlines line⟩, rest)
  else if line ≠ [] then (Except.ok ⟨trimRightNewlines line⟩, rest)
  else (Except.error (GoError.msg "EOF"), rest)

/-- Go source `ConnTransport.ReadLine` (replay_transport.go sources): the
same line discipline as `StdioTransport.ReadLine` over a duplex
connection. -/
def ConnTransport.ReadLine (conn : List Char) : Except GoError String × List Char :=
  let (line, found, rest) := readUntilNL conn
  if found then (Except.ok ⟨trimRightNewlines line⟩, rest)
  else if line ≠ [] then (Except.ok ⟨trimRightNewlines line⟩, rest)
  else (Except.error (GoError.msg "EOF"), rest)

theorem mapLookup_eq_none_iff {α : Type} (t : List (String × α)) (k : String) :
    mapLookup t k = none ↔ ∀ kv ∈ t, ¬(kv.1 == k) = true := by
  simp [mapLookup, List.find?_eq_none]

theorem mapErase_of_lookup_none {α : Type} {t : List (String × α)} {k : String}
    (h : mapLookup t k = none) : mapErase t k = t := by
  rw [mapErase, List.filter_eq_self]
  intro kv hm
  have hk := (mapLookup_eq_none_iff t k).1 h kv hm
  simpa using hk

theorem mapAny_eq_false_of_lookup_none {α : Type} {t : List (String × α)} {k : String}
    (h : mapLookup t k = none) : t.any (fun kv => kv.1 == k) = false := by
  rw [List.any_eq_false]
  intro kv hm
  exact (mapLookup_eq_none_iff t k).1 h kv hm

theorem mapErase_mapInsert_fresh {α : Type} {t : List (String × α)} {k : String} (v : α)
    (h : mapLookup t k = none) : mapErase (mapInsert t k v) k = t := by
  rw [mapInsert, if_neg (by simp [mapAny_eq_false_of_lookup_none h])]
  rw [mapErase, List.filter_append]
  have h1 : List.filter (fun kv => !(kv.1 == k)) t = t :=
    mapErase_of_lookup_none h
  simp [h1]

/-- C6: encoding a RequestID constructed in string form or in (64-bit)
integer form and decoding it again yields an equal id in the same
representation, and the table keys of the string id "1" and the integer
id 1 — and in general of any string id and any integer id — are distinct,
so the two key domains never collide. -/
theorem C6_requestid_roundtrip_and_key_domains :
    (∀ s : String,
        RequestID.UnmarshalJSON (RequestID.MarshalJSON (NewStringRequestID s)) =
          Except.ok (NewStringRequestID s))
    ∧ (∀ n : Int, inInt64Range n = true →
        RequestID.UnmarshalJSON (RequestID.MarshalJSON (NewIntRequestID n)) =
          Except.ok (NewIntRequestID n))
    ∧ (NewStringRequestID "1").Key ≠ (NewIntRequestID 1).Key
    ∧ (∀ s : String, ∀ n : Int, (RequestID.str s).Key ≠ (RequestID.num n).Key) := by
  refine ⟨fun s => rfl, fun n h => ?_, by decide, fun s n h => ?_⟩
  · simp [NewIntRequestID, RequestID.MarshalJSON, RequestID.UnmarshalJSON, h]
  · have h2 := congrArg String.data h
    have e1 : (RequestID.str s).Key.data = 's' :: ':' :: s.data := rfl
    have e2 : (RequestID.num n).Key.data = 'i' :: ':' :: (toString n).data := rfl
    rw [e1, e2] at h2
    simp at h2

/-- C6 witness: the round-trip at the string id "abc" and the integer id
42, and key distinctness at "1" versus 1. -/
theorem C6_requestid_roundtrip_and_key_domains_witness :
    RequestID.UnmarshalJSON (RequestID.MarshalJSON (NewStringRequestID "abc")) =
        Except.ok (NewStringRequestID "abc")
    ∧ RequestID.UnmarshalJSON (RequestID.MarshalJSON (NewIntRequestID 42)) =
        Except.ok (NewIntRequestID 42)
    ∧ (NewStringRequestID "1").Key ≠ (NewIntRequestID 1).Key :=
  ⟨C6_requestid_roundtrip_and_key_domains.1 "abc",
   C6_requestid_roundtrip_and_key_domains.2.1 42 (by decide),
   C6_requestid_roundtrip_and_key_domains.2.2.1⟩

/-- C5: when a response line or an error line arrives whose RequestID has
no entry in the pending table, the client silently discards it — no
delivery event occurs and the client state (pending table, subscriptions,
everything) is unchanged. -/
theorem C5_unmatched_line_silently_dropped (c : ClientState)
    (resp : JSONRPCResponse) (er : JSONRPCError)
    (h1 : mapLookup c.pending resp.id.Key = none)
    (h2 : mapLookup c.pending er.id.Key = none) :
    Client.handleResponse c resp = (c, []) ∧ Client.handleError c er = (c, []) := by
  constructor
  · rw [Client.handleResponse]
    rw [h1, mapErase_of_lookup_none h1]
  · rw [Client.handleError]
    rw [h2, mapErase_of_lookup_none h2]

/-- C5 witness: a client with one pending entry for key "i:5" silently
drops a response and an error response whose id is 1. -/
theorem C5_unmatched_line_silently_dropped_witness :
    Client.handleResponse ⟨5, [("i:5", 0)], [2], none, false, none⟩
        ⟨RequestID.num 1, Json.bool true⟩ =
      (⟨5, [("i:5", 0)], [2], none, false, none⟩, [])
    ∧ Client.handleError ⟨5, [("i:5", 0)], [2], none, false, none⟩
        ⟨RequestID.num 1, ⟨-1, "late", none⟩⟩ =
      (⟨5, [("i:5", 0)], [2], none, false, none⟩, []) :=
  C5_unmatched_line_silently_dropped ⟨5, [("i:5", 0)], [2], none, false, none⟩
    ⟨RequestID.num 1, Json.bool true⟩ ⟨RequestID.num 1, ⟨-1, "late", none⟩⟩ rfl rfl

/-- C8: with no server-request handler installed, every inbound
server-initiated request is answered immediately and exactly once: the
client writes back one JSON-RPC error line keyed by the original request's
RequestID with the fixed method-not-handled code -32601, so the request is
never left unanswered. -/
theorem C8_no_handler_immediate_error_reply (c : ClientState) (req : JSONRPCRequest)
    (h : c.handler = none) :
    Client.handleServerRequest c req =
      [Event.write (printJson (JSONRPCError.marshal
        ⟨req.id, ⟨-32601, "no handler configured", none⟩⟩))] := by
  rw [Client.handleServerRequest, h]
  rfl

/-- C8 witness: a handler-less client answers the server request with id 7
with the single -32601 error line keyed by id 7. -/
theorem C8_no_handler_immediate_error_reply_witness :
    Client.handleServerRequest ⟨0, [], [], none, false, none⟩
        ⟨RequestID.num 7, "item/commandExecution/requestApproval", none⟩ =
      [Event.write "\x7b\"id\":7,\"error\":\x7b\"code\":-32601,\"message\":\"no handler configured\"\x7d\x7d"] := by
  have h := C8_no_handler_immediate_error_reply ⟨0, [], [], none, false, none⟩
    ⟨RequestID.num 7, "item/commandExecution/requestApproval", none⟩ rfl
  rw [h]
  rfl

theorem readUntilNL_no_newline (s : List Char) (h : '\n' ∉ s) :
    readUntilNL s = (s, false, []) := by
  induction s with
  | nil => rfl
  | cons c rest ih =>
    rw [readUntilNL]
    rw [if_neg (by intro hc; exact h (hc ▸ List.mem_cons_self c rest))]
    rw [ih (fun hm => h (List.mem_cons_of_mem c hm))]

theorem trimRightNewlines_no_newline (s : List Char) (h : '\n' ∉ s) :
    trimRightNewlines s = s := by
  rw [trimRightNewlines]
  have hd : s.reverse.dropWhile (fun c => c = '\n') = s.reverse := by
    cases hr : s.reverse with
    | nil => rfl
    | cons c rest =>
      rw [List.dropWhile_cons, if_neg]
      simp only [decide_eq_true_eq]
      intro hc
      apply h
      rw [← List.mem_reverse, hr, hc]
      exact List.mem_cons_self _ _
  rw [hd, List.reverse_reverse]

/-- C10: for both the process (stdio) transport and the duplex-connection
transport, when the stream ends at end-of-file in a non-empty final line
with no trailing newline, ReadLine returns that partial line with no
error and consumes the stream, and the end-of-stream error surfaces only
on the subsequent ReadLine call. -/
theorem C10_partial_final_line_then_eof (s : List Char) (h1 : s ≠ []) (h2 : '\n' ∉ s) :
    StdioTransport.ReadLine s = (Except.ok ⟨s⟩, [])
    ∧ StdioTransport.ReadLine [] = (Except.error (GoError.msg "EOF"), [])
    ∧ ConnTransport.ReadLine s = (Except.ok ⟨s⟩, [])
    ∧ ConnTransport.ReadLine [] = (Except.error (GoError.msg "EOF"), []) := by
  have hr := readUntilNL_no_newline s h2
  have ht := trimRightNewlines_no_newline s h2
  refine ⟨?_, rfl, ?_, rfl⟩
  · rw [StdioTransport.ReadLine, hr]
    simp [h1, ht]
  · rw [ConnTransport.ReadLine, hr]
    simp [h1, ht]

/-- C10 witness: the stream holding exactly `ok` with no newline yields the
line "ok" without error, then EOF. -/
theorem C10_partial_final_line_then_eof_witness :
    StdioTransport.ReadLine ['o', 'k'] = (Except.ok "ok", [])
    ∧ StdioTransport.ReadLine [] = (Except.error (GoError.msg "EOF"), [])
    ∧ ConnTransport.ReadLine ['o', 'k'] = (Except.ok "ok", [])
    ∧ ConnTransport.ReadLine [] = (Except.error (GoError.msg "EOF"), []) :=
  C10_partial_final_line_then_eof ['o', 'k'] (by decide) (by decide)

/-- C4: when the params serialization fails, Call reports that error
immediately: nothing is consumed from the transport transcript and the
pending table is observably unchanged when Call returns (the fresh id's
entry is inserted and deleted again; only the never-reused id counter has
advanced). -/
theorem C4_marshal_failure_no_wire_no_table {α : Type} (c : ClientState)
    (entries : List TranscriptEntry) (method : String) (e : GoError)
    (dec : Json → Except GoError α)
    (hopen : c.finished = false)
    (hfresh : mapLookup c.pending (RequestID.num (c.nextID + 1)).Key = none) :
    Client.CallRun c entries method (Except.error e) dec =
      (CallResult.err e, { c with nextID := c.nextID + 1 }, entries) := by
  rw [Client.CallRun]
  simp only [hopen, Bool.false_eq_true, if_false, Client.nextRequestID,
    BuildClientRequest, Client.deletePending]
  rw [mapErase_mapInsert_fresh 0 hfresh]

/-- C4 witness: on a fresh client a Call whose params cannot be marshalled
returns that error with the table empty again, the transcript untouched,
and only the id counter advanced. -/
theorem C4_marshal_failure_no_wire_no_table_witness :
    Client.CallRun ⟨0, [], [], none, false, none⟩ []
        "ping" (Except.error (GoError.msg "json: unsupported type: func()"))
        (fun j => Except.ok j) =
      (CallResult.err (GoError.msg "json: unsupported type: func()"),
        ⟨1, [], [], none, false, none⟩, []) := by
  have h := C4_marshal_failure_no_wire_no_table ⟨0, [], [], none, false, none⟩ []
    "ping" (GoError.msg "json: unsupported type: func()") (fun j => Except.ok j) rfl rfl
  exact h

theorem count_resolve_map (l : List (String × Nat)) (k : String) (m : response)
    (hnd : (l.map Prod.fst).Nodup) (hk : k ∈ l.map Prod.fst) :
    (l.map (fun kv => Event.resolve kv.1 m)).count (Event.resolve k m) = 1 := by
  have hmap : l.map (fun kv => Event.resolve kv.1 m) =
      (l.map Prod.fst).map (fun s => Event.resolve s m) := by
    rw [List.map_map]
    rfl
  have hinj : Function.Injective (fun s => Event.resolve s m) := by
    intro a b hab
    simpa using hab
  rw [hmap, List.count_map_of_injective _ _ hinj]
  exact List.count_eq_one_of_mem hnd hk

theorem count_closeSub_map (subs : List Nat) (i : Nat)
    (hnd : subs.Nodup) (hi : i ∈ subs) :
    (subs.map Event.closeSub).count (Event.closeSub i) = 1 := by
  have hinj : Function.Injective Event.closeSub := by
    intro a b hab
    simpa using hab
  rw [List.count_map_of_injective _ _ hinj]
  exact List.count_eq_one_of_mem hnd hi

/-- C2: client termination resolves state exactly once.  The first trigger
(Close or a terminal read-loop error) resolves every pending Call with the
termination error and closes every live subscription — exactly one resolve
event per pending key and one close event per subscription across the whole
trigger sequence — and any later trigger leaves the state unchanged and has
no further effect. -/
theorem C2_termination_resolves_exactly_once (c : ClientState) (e1 e2 : GoError)
    (hopen : c.finished = false)
    (hkeys : (c.pending.map Prod.fst).Nodup) (hsubs : c.subs.Nodup) :
    Client.finish c e1 =
      ({ c with finished := true, err := some e1, pending := [], subs := [] },
        c.pending.map (fun kv => Event.resolve kv.1 ⟨none, some e1⟩) ++
          c.subs.map Event.closeSub)
    ∧ Client.finish (Client.finish c e1).1 e2 = ((Client.finish c e1).1, [])
    ∧ (∀ k ∈ c.pending.map Prod.fst,
        ((Client.finish c e1).2 ++ (Client.finish (Client.finish c e1).1 e2).2).count
          (Event.resolve k ⟨none, some e1⟩) = 1)
    ∧ (∀ i ∈ c.subs,
        ((Client.finish c e1).2 ++ (Client.finish (Client.finish c e1).1 e2).2).count
          (Event.closeSub i) = 1) := by
  have h1 : Client.finish c e1 =
      ({ c with finished := true, err := some e1, pending := [], subs := [] },
        c.pending.map (fun kv => Event.resolve kv.1 ⟨none, some e1⟩) ++
          c.subs.map Event.closeSub) := by
    rw [Client.finish, if_neg (by simp [hopen])]
  have h2 : Client.finish (Client.finish c e1).1 e2 = ((Client.finish c e1).1, []) := by
    rw [h1]
    rfl
  refine ⟨h1, h2, ?_, ?_⟩
  · intro k hk
    rw [h2, h1]
    simp only [List.append_nil, List.count_append]
    rw [count_resolve_map c.pending k ⟨none, some e1⟩ hkeys hk]
    have hz : (c.subs.map Event.closeSub).count (Event.resolve k ⟨none, some e1⟩) = 0 := by
      rw [List.count_eq_zero]
      simp
    rw [hz]
  · intro i hi
    rw [h2, h1]
    simp only [List.append_nil, List.count_append]
    rw [count_closeSub_map c.subs i hsubs hi]
    have hz : (c.pending.map (fun kv => Event.resolve kv.1 ⟨none, some e1⟩)).count
        (Event.closeSub i) = 0 := by
      rw [List.count_eq_zero]
      simp
    rw [hz]

/-- C2 witness: a client with two pending calls and two live subscriptions,
terminated by a read error racing a Close: the first trigger resolves both
keys and closes both subscriptions exactly once, the second does nothing. -/
theorem C2_termination_resolves_exactly_once_witness :
    Client.finish ⟨2, [("i:1", 0), ("i:2", 0)], [0, 1], none, false, none⟩
        (GoError.msg "EOF") =
      (⟨2, [], [], none, true, some (GoError.msg "EOF")⟩,
        [Event.resolve "i:1" ⟨none, some (GoError.msg "EOF")⟩,
         Event.resolve "i:2" ⟨none, some (GoError.msg "EOF")⟩,
         Event.closeSub 0, Event.closeSub 1])
    ∧ Client.finish (Client.finish ⟨2, [("i:1", 0), ("i:2", 0)], [0, 1], none, false, none⟩
          (GoError.msg "EOF")).1 (GoError.msg "client closed") =
        ((Client.finish ⟨2, [("i:1", 0), ("i:2", 0)], [0, 1], none, false, none⟩
          (GoError.msg "EOF")).1, [])
    ∧ ((Client.finish ⟨2, [("i:1", 0), ("i:2", 0)], [0, 1], none, false, none⟩
          (GoError.msg "EOF")).2 ++
        (Client.finish (Client.finish ⟨2, [("i:1", 0), ("i:2", 0)], [0, 1], none, false, none⟩
          (GoError.msg "EOF")).1 (GoError.msg "client closed")).2).count
        (Event.resolve "i:1" ⟨none, some (GoError.msg "EOF")⟩) = 1
    ∧ ((Client.finish ⟨2, [("i:1", 0), ("i:2", 0)], [0, 1], none, false, none⟩
          (GoError.msg "EOF")).2 ++
        (Client.finish (Client.finish ⟨2, [("i:1", 0), ("i:2", 0)], [0, 1], none, false, none⟩
          (GoError.msg "EOF")).1 (GoError.msg "client closed")).2).count
        (Event.closeSub 0) = 1 := by
  have h := C2_termination_resolves_exactly_once
    ⟨2, [("i:1", 0), ("i:2", 0)], [0, 1], none, false, none⟩
    (GoError.msg "EOF") (GoError.msg "client closed") rfl (by decide) (by decide)
  exact ⟨h.1, h.2.1, h.2.2.1 "i:1" (by decide), h.2.2.2 0 (by decide)⟩

/-- C9 counterexample: the claim says WriteLine consumes the next
write-direction entry exactly when the supplied line is JSON-value-equal to
the recorded line; but two identical lines that are not JSON at all are
consumed although they are not JSON-value-equal (the normalization of
`"hello"` fails, so `equalJSONLine` is false, yet the textual-equality
disjunct of the source consumes the entry). -/
theorem C9_counterexample_textual_match_consumes :
    ReplayTransport.WriteLine ⟨[⟨TranscriptDirection.write, "hello"⟩], 0, false⟩ "hello" =
      WriteOutcome.ok ⟨[⟨TranscriptDirection.write, "hello"⟩], 1, false⟩
    ∧ equalJSONLine "hello" "hello" = false := by
  exact ⟨rfl, rfl⟩

/-- C9 amended: on an open replay transport whose cursor entry has write
direction, WriteLine consumes the entry exactly when the supplied line is
textually equal to the recorded line or JSON-value-equal
(key-order-insensitive) to it; on mismatch it returns the error naming both
the actual and the expected line and leaves the cursor (the whole
transport state) unchanged. -/
theorem C9_writeline_consume_iff_amended (t : ReplayState) (line : String)
    (hclosed : t.closed = false) (h : t.index < t.transcript.length)
    (hdir : (t.transcript.get ⟨t.index, h⟩).direction = TranscriptDirection.write) :
    (((t.transcript.get ⟨t.index, h⟩).line = line ∨
        equalJSONLine (t.transcript.get ⟨t.index, h⟩).line line = true) →
      ReplayTransport.WriteLine t line = WriteOutcome.ok { t with index := t.index + 1 })
    ∧ (((t.transcript.get ⟨t.index, h⟩).line ≠ line ∧
        equalJSONLine (t.transcript.get ⟨t.index, h⟩).line line = false) →
      ReplayTransport.WriteLine t line =
        WriteOutcome.err ("unexpected WriteLine: got " ++ goQuote line ++ ", want " ++
          goQuote (t.transcript.get ⟨t.index, h⟩).line) t) := by
  constructor
  · intro hmatch
    rw [ReplayTransport.WriteLine, if_neg (by simp [hclosed]), dif_pos h, if_pos hdir]
    rw [if_neg]
    intro hcontra
    rcases hmatch with heq | hjson
    · exact hcontra.1 heq
    · rw [hjson] at hcontra
      exact absurd hcontra.2 (by simp)
  · intro hmismatch
    rw [ReplayTransport.WriteLine, if_neg (by simp [hclosed]), dif_pos h, if_pos hdir]
    rw [if_pos hmismatch]

/-- C9 witness: a recorded write line is consumed by a supplied line with
the same JSON value under a different key order. -/
theorem C9_writeline_consume_iff_amended_witness :
    ReplayTransport.WriteLine
        ⟨[⟨TranscriptDirection.write, "\x7b\"a\":1,\"b\":2\x7d"⟩], 0, false⟩
        "\x7b\"b\":2,\"a\":1\x7d" =
      WriteOutcome.ok ⟨[⟨TranscriptDirection.write, "\x7b\"a\":1,\"b\":2\x7d"⟩], 1, false⟩ := by
  have h := (C9_writeline_consume_iff_amended
      ⟨[⟨TranscriptDirection.write, "\x7b\"a\":1,\"b\":2\x7d"⟩], 0, false⟩
      "\x7b\"b\":2,\"a\":1\x7d" rfl (by decide) rfl).1 (Or.inr rfl)
  exact h

/-- C7 counterexample: the payload `{"result":true}` has no id key and no
method key, so under the claim's presence-only classification (response
requires id and result) it matches none of the four shapes and must fail
with the "unrecognized message" error; the code instead classifies it as a
response with the zero id. -/
theorem C7_counterexample_result_without_id :
    parseMessage (Json.obj [("result", Json.bool true)]) =
      Except.ok (Message.response ⟨RequestID.zero, Json.bool true⟩) := by
  rfl

/-- C7 amended: parseMessage classifies a decoded envelope as follows — a
non-empty method string with the id key present (even `null`) is a
request; a non-empty method without the id key is a notification;
otherwise a present result key is a response and, failing that, a non-null
error field is an error, in both cases with no id key required (an absent
or null id yields the zero id); and a payload with empty-or-absent method,
no result key and no error field fails with the distinct
"unrecognized json-rpc message" error. -/
theorem C7_parse_classification_amended (j : Json) (env : Envelope) (i : RequestID)
    (henv : decodeEnvelope j = Except.ok env)
    (hid : parseRequestID env.id = Except.ok i) :
    (env.method ≠ "" → env.id.isSome = true →
        parseMessage j = Except.ok (Message.request ⟨i, env.method, env.params⟩))
    ∧ (env.method ≠ "" → env.id.isSome = false →
        parseMessage j = Except.ok (Message.notification ⟨env.method, env.params⟩))
    ∧ (∀ r, env.method = "" → env.result = some r →
        parseMessage j = Except.ok (Message.response ⟨i, r⟩))
    ∧ (∀ d, env.method = "" → env.result = none → env.error = some d →
        parseMessage j = Except.ok (Message.error ⟨i, d⟩))
    ∧ (env.method = "" → env.result = none → env.error = none →
        parseMessage j = Except.error "unrecognized json-rpc message") := by
  refine ⟨?_, ?_, ?_, ?_, ?_⟩
  · intro hm hsome
    rw [parseMessage, henv]
    simp [hm, hsome, hid]
  · intro hm hnone
    rw [parseMessage, henv]
    simp [hm, hnone]
  · intro r hm hr
    rw [parseMessage, henv]
    simp [hm, hr, hid]
  · intro d hm hr he
    rw [parseMessage, henv]
    simp [hm, hr, he, hid]
  · intro hm hr he
    rw [parseMessage, henv]
    simp [hm, hr, he]

/-- C7 witness: the amended classification at a concrete request line, a
concrete notification line, and a concrete id-less error payload. -/
theorem C7_parse_classification_amended_witness :
    parseMessage (Json.obj [("id", Json.num 1), ("method", Json.str "ping")]) =
      Except.ok (Message.request ⟨RequestID.num 1, "ping", none⟩)
    ∧ parseMessage (Json.obj [("method", Json.str "turn/started")]) =
      Except.ok (Message.notification ⟨"turn/started", none⟩)
    ∧ parseMessage (Json.obj [("error",
        Json.obj [("code", Json.num (-1)), ("message", Json.str "bad")])]) =
      Except.ok (Message.error ⟨RequestID.zero, ⟨-1, "bad", none⟩⟩) := by
  refine ⟨?_, ?_, ?_⟩
  · exact (C7_parse_classification_amended
      (Json.obj [("id", Json.num 1), ("method", Json.str "ping")])
      ⟨some (Json.num 1), "ping", none, none, none⟩ (RequestID.num 1)
      rfl rfl).1 (by decide) rfl
  · exact (C7_parse_classification_amended
      (Json.obj [("method", Json.str "turn/started")])
      ⟨none, "turn/started", none, none, none⟩ RequestID.zero
      rfl rfl).2.1 (by decide) rfl
  · exact (C7_parse_classification_amended
      (Json.obj [("error", Json.obj [("code", Json.num (-1)), ("message", Json.str "bad")])])
      ⟨none, "", none, none, some ⟨-1, "bad", none⟩⟩ RequestID.zero
      rfl rfl).2.2.2.1 ⟨-1, "bad", none⟩ rfl rfl rfl

/-- A transcript entry that the read loop consumes without resolving the
awaited key and without writing: a read-direction line that is blank or
unparsable (skipped with a warning), a notification (fanned out to the
subscriptions), or a response or error line for a different key (silently
dropped). -/
def benignEntry (key : String) (e : TranscriptEntry) : Prop :=
  e.direction = TranscriptDirection.read ∧
    (match parseLine e.line with
     | Except.error _ => True
     | Except.ok (Message.notification _) => True
     | Except.ok (Message.response r) => r.id.Key ≠ key
     | Except.ok (Message.error er) => er.id.Key ≠ key
     | Except.ok (Message.request _) => False)

theorem awaitKey_skip_benign (key : String) (middle rest : List TranscriptEntry)
    (h : ∀ e ∈ middle, benignEntry key e) :
    awaitKey key (middle ++ rest) = awaitKey key rest := by
  induction middle with
  | nil => rfl
  | cons e mid ih =>
    have he := h e (List.mem_cons_self e mid)
    have hrest : ∀ x ∈ mid, benignEntry key x :=
      fun x hx => h x (List.mem_cons_of_mem e hx)
    rw [List.cons_append, awaitKey, if_neg (by rw [he.1]; simp)]
    by_cases htrim : trimSpace e.line = ""
    · rw [if_pos htrim]
      exact ih hrest
    · rw [if_neg htrim]
      have hb := he.2
      cases hp : parseLine e.line with
      | error err =>
        exact ih hrest
      | ok m =>
        cases m with
        | response r =>
          rw [hp] at hb
          have hb2 : r.id.Key ≠ key := hb
          exact (if_neg hb2).trans (ih hrest)
        | error er =>
          rw [hp] at hb
          have hb2 : er.id.Key ≠ key := hb
          exact (if_neg hb2).trans (ih hrest)
        | request q =>
          rw [hp] at hb
          have hb2 : False := hb
          exact hb2.elim
        | notification n =>
          exact ih hrest

/-- C1: over a replay transport whose transcript pairs the written client
request with a later read response carrying the same RequestID (with only
benign read lines in between), Call returns with no error and hands the
recorded result JSON to the caller's decoder, returning its decoded
value. -/
theorem C1_call_replay_delivers_result {α : Type} (c : ClientState)
    (method : String) (p : Option Json) (dec : Json → Except GoError α) (v : α)
    (w respLine : String) (middle rest : List TranscriptEntry) (r : JSONRPCResponse)
    (hopen : c.finished = false)
    (hw : w = printJson (JSONRPCRequest.marshal ⟨RequestID.num (c.nextID + 1), method, p⟩) ∨
      equalJSONLine w
        (printJson (JSONRPCRequest.marshal ⟨RequestID.num (c.nextID + 1), method, p⟩)) = true)
    (hmid : ∀ e ∈ middle, benignEntry (RequestID.num (c.nextID + 1)).Key e)
    (hblank : trimSpace respLine ≠ "")
    (hresp : parseLine respLine = Except.ok (Message.response r))
    (hrid : r.id = RequestID.num (c.nextID + 1))
    (hdec : dec r.result = Except.ok v) :
    (Client.CallRun c
        (⟨TranscriptDirection.write, w⟩ ::
          (middle ++ ⟨TranscriptDirection.read, respLine⟩ :: rest))
        method (Except.ok p) dec).1 = CallResult.ok v := by
  have hwl : replayWriteLineEntries
      (⟨TranscriptDirection.write, w⟩ ::
        (middle ++ ⟨TranscriptDirection.read, respLine⟩ :: rest))
      (printJson (JSONRPCRequest.marshal ⟨RequestID.num (c.nextID + 1), method, p⟩)) =
      WriteLineOnEntries.ok (middle ++ ⟨TranscriptDirection.read, respLine⟩ :: rest) := by
    rw [replayWriteLineEntries, if_pos rfl, if_neg]
    intro hcontra
    rcases hw with heq | hjson
    · exact hcontra.1 heq
    · rw [hjson] at hcontra
      exact absurd hcontra.2 (by simp)
  have hawait : awaitKey (RequestID.num (c.nextID + 1)).Key
      (middle ++ ⟨TranscriptDirection.read, respLine⟩ :: rest) =
      AwaitOutcome.resolved ⟨some r.result, none⟩ rest := by
    rw [awaitKey_skip_benign _ _ _ hmid]
    have hkey : r.id.Key = (RequestID.num (c.nextID + 1)).Key := by rw [hrid]
    simp only [awaitKey]
    rw [if_neg (show ¬(TranscriptDirection.read = TranscriptDirection.write) from by simp),
      if_neg hblank, hresp]
    exact if_pos hkey
  rw [Client.CallRun]
  simp only [hopen, Bool.false_eq_true, if_false, Client.nextRequestID,
    BuildClientRequest, hwl, hawait, hdec]

/-- C1 witness: the scripted exchange of a `ping` request with id 1 and the
recorded response `{"ok":true}` makes Call return the recorded result with
no error. -/
theorem C1_call_replay_delivers_result_witness :
    (Client.CallRun ⟨0, [], [], none, false, none⟩
        [⟨TranscriptDirection.write, "\x7b\"id\":1,\"method\":\"ping\"\x7d"⟩,
         ⟨TranscriptDirection.read, "\x7b\"id\":1,\"result\":\x7b\"ok\":true\x7d\x7d"⟩]
        "ping" (Except.ok none) (fun j => Except.ok j)).1 =
      CallResult.ok (Json.obj [("ok", Json.bool true)]) := by
  have h := C1_call_replay_delivers_result ⟨0, [], [], none, false, none⟩
    "ping" none (fun j => Except.ok j) (Json.obj [("ok", Json.bool true)])
    "\x7b\"id\":1,\"method\":\"ping\"\x7d" "\x7b\"id\":1,\"result\":\x7b\"ok\":true\x7d\x7d"
    [] [] ⟨RequestID.num 1, Json.obj [("ok", Json.bool true)]⟩
    rfl (Or.inl rfl) (by intro e he; cases he) (by decide) rfl rfl rfl
  exact h

/-- C3 counterexample: the peer answers the Call with the JSON-RPC error
`{"code":-1,"message":"bad"}`; Call returns a non-nil error, but that
error's message is "json-rpc error -1: bad", which does not equal the
peer's message string "bad". -/
theorem C3_counterexample_error_message_not_equal :
    (Client.CallRun ⟨0, [], [], none, false, none⟩
        [⟨TranscriptDirection.write, "\x7b\"id\":1,\"method\":\"ping\"\x7d"⟩,
         ⟨TranscriptDirection.read,
           "\x7b\"id\":1,\"error\":\x7b\"code\":-1,\"message\":\"bad\"\x7d\x7d"⟩]
        "ping" (Except.ok none) (fun j => Except.ok j)).1 =
      CallResult.err (GoError.responseError (RequestID.num 1) ⟨-1, "bad", none⟩)
    ∧ (GoError.responseError (RequestID.num 1) ⟨-1, "bad", none⟩).message ≠ "bad" := by
  exact ⟨rfl, by decide⟩

/-- C3 amended: when the peer answers a Call with a JSON-RPC error, Call
returns a non-nil error wrapping the peer error: its detail payload equals
the peer's error (in particular the detail message equals the peer's
message string), and its formatted Go error message is
"json-rpc error <code>: <message>", which embeds but does not in general
equal the peer's message. -/
theorem C3_peer_error_wrapped_amended {α : Type} (c : ClientState)
    (method : String) (p : Option Json) (dec : Json → Except GoError α)
    (w errLine : String) (middle rest : List TranscriptEntry) (er : JSONRPCError)
    (hopen : c.finished = false)
    (hw : w = printJson (JSONRPCRequest.marshal ⟨RequestID.num (c.nextID + 1), method, p⟩) ∨
      equalJSONLine w
        (printJson (JSONRPCRequest.marshal ⟨RequestID.num (c.nextID + 1), method, p⟩)) = true)
    (hmid : ∀ e ∈ middle, benignEntry (RequestID.num (c.nextID + 1)).Key e)
    (hblank : trimSpace errLine ≠ "")
    (hresp : parseLine errLine = Except.ok (Message.error er))
    (herid : er.id = RequestID.num (c.nextID + 1)) :
    (Client.CallRun c
        (⟨TranscriptDirection.write, w⟩ ::
          (middle ++ ⟨TranscriptDirection.read, errLine⟩ :: rest))
        method (Except.ok p) dec).1 =
      CallResult.err (GoError.responseError er.id er.error)
    ∧ (GoError.responseError er.id er.error).message =
      "json-rpc error " ++ toString er.error.code ++ ": " ++ er.error.message := by
  have hwl : replayWriteLineEntries
      (⟨TranscriptDirection.write, w⟩ ::
        (middle ++ ⟨TranscriptDirection.read, errLine⟩ :: rest))
      (printJson (JSONRPCRequest.marshal ⟨RequestID.num (c.nextID + 1), method, p⟩)) =
      WriteLineOnEntries.ok (middle ++ ⟨TranscriptDirection.read, errLine⟩ :: rest) := by
    rw [replayWriteLineEntries, if_pos rfl, if_neg]
    intro hcontra
    rcases hw with heq | hjson
    · exact hcontra.1 heq
    · rw [hjson] at hcontra
      exact absurd hcontra.2 (by simp)
  have hawait : awaitKey (RequestID.num (c.nextID + 1)).Key
      (middle ++ ⟨TranscriptDirection.read, errLine⟩ :: rest) =
      AwaitOutcome.resolved ⟨none, some (GoError.responseError er.id er.error)⟩ rest := by
    rw [awaitKey_skip_benign _ _ _ hmid]
    have hkey : er.id.Key = (RequestID.num (c.nextID + 1)).Key := by rw [herid]
    simp only [awaitKey]
    rw [if_neg (show ¬(TranscriptDirection.read = TranscriptDirection.write) from by simp),
      if_neg hblank, hresp]
    exact if_pos hkey
  constructor
  · rw [Client.CallRun]
    simp only [hopen, Bool.false_eq_true, if_false, Client.nextRequestID,
      BuildClientRequest, hwl, hawait]
  · rfl

/-- C3 witness: the amended property at the concrete peer error
`{"code":-1,"message":"bad"}`. -/
theorem C3_peer_error_wrapped_amended_witness :
    (Client.CallRun ⟨0, [], [], none, false, none⟩
        [⟨TranscriptDirection.write, "\x7b\"id\":1,\"method\":\"ping\"\x7d"⟩,
         ⟨TranscriptDirection.read,
           "\x7b\"id\":1,\"error\":\x7b\"code\":-1,\"message\":\"bad\"\x7d\x7d"⟩]
        "ping" (Except.ok none) (fun j => Except.ok j)).1 =
      CallResult.err (GoError.responseError (RequestID.num 1) ⟨-1, "bad", none⟩)
    ∧ (GoError.responseError (RequestID.num 1) ⟨-1, "bad", none⟩).message =
      "json-rpc error " ++ toString (-1 : Int) ++ ": " ++ "bad" := by
  have h := C3_peer_error_wrapped_amended ⟨0, [], [], none, false, none⟩
    "ping" none (fun j => Except.ok j)
    "\x7b\"id\":1,\"method\":\"ping\"\x7d"
    "\x7b\"id\":1,\"error\":\x7b\"code\":-1,\"message\":\"bad\"\x7d\x7d"
    [] [] ⟨RequestID.num 1, ⟨-1, "bad", none⟩⟩
    rfl (Or.inl rfl) (by intro e he; cases he) (by decide) rfl rfl
  exact h
